import Mathlib

/-!
Shallow embedding of the bava speaker-diarization core (the two-threshold
hysteresis variant the spec designates as authoritative): fingerprint
building, fingerprint comparison, speaker-profile EWMA updates, the
diarization decision policy `detectSpeakerChange`, color assignment, and
the speaker state machine, together with theorems settling the frozen
claims about them.  Machine floats are modelled by `ℚ`, JS `null` by
`Option`, JS numeric-keyed objects by association lists kept in ascending
key order (matching `Object.entries` enumeration of integer keys).
-/

namespace Bava

/-- A voice fingerprint `{ pitchAvg, pitchVar, centroidAvg, centroidVar }`. -/
structure Fingerprint where
  pitchAvg : ℚ
  pitchVar : ℚ
  centroidAvg : ℚ
  centroidVar : ℚ
deriving DecidableEq, Repr

/-- A stored speaker profile: the fingerprint fields plus `sampleCount`
(`{ ...fingerprint, sampleCount }`). -/
structure SpeakerProfile extends Fingerprint where
  sampleCount : ℕ
deriving DecidableEq, Repr

/-- One voice feature sample `{ pitch, centroid }` collected every
`VOICE_SAMPLE_INTERVAL`. -/
structure VoiceSample where
  pitch : ℚ
  centroid : ℚ
deriving DecidableEq, Repr

/-- `SPEAKER_ANALYSIS_THRESHOLD = 2000` — 2s of silence triggers voice analysis. -/
def SPEAKER_ANALYSIS_THRESHOLD : ℤ := 2000

/-- `VOICE_PROFILE_MIN_SAMPLES = 5` — minimum samples before a fingerprint is built. -/
def VOICE_PROFILE_MIN_SAMPLES : ℕ := 5

/-- An entry of the `SPEAKER_COLORS` palette: `{ name, hex, border }`. -/
structure SpeakerColor where
  name : String
  hex : String
  border : String
deriving DecidableEq, Repr

/-- The fixed 8-entry colorblind-safe palette `SPEAKER_COLORS`. -/
def SPEAKER_COLORS : List SpeakerColor :=
  [ ⟨"Blauw", "#4a9eff", "#2b7de9"⟩,
    ⟨"Oranje", "#e69f00", "#c98a00"⟩,
    ⟨"Groen", "#009e73", "#007a59"⟩,
    ⟨"Roze", "#cc79a7", "#b05e8c"⟩,
    ⟨"Geel", "#f0e442", "#d4c830"⟩,
    ⟨"Cyaan", "#56b4e9", "#3a9ad4"⟩,
    ⟨"Rood", "#d55e00", "#b34d00"⟩,
    ⟨"Paars", "#a855f7", "#8b3de0"⟩ ]

/-- Lookup in a numeric-keyed object (`obj[k]`, `undefined` as `none`). -/
def lookupId {α : Type} : List (ℕ × α) → ℕ → Option α
  | [], _ => none
  | (k', v) :: rest, k => if k' = k then some v else lookupId rest k

/-- Assignment `obj[k] = v` on a numeric-keyed object; keeps entries in
ascending key order, as `Object.entries` enumerates integer keys. -/
def setId {α : Type} : List (ℕ × α) → ℕ → α → List (ℕ × α)
  | [], k, v => [(k, v)]
  | (k', v') :: rest, k, v =>
    if k = k' then (k, v) :: rest
    else if k < k' then (k, v) :: (k', v') :: rest
    else (k', v') :: setId rest k v

/-- Deletion `delete obj[k]` on a numeric-keyed object. -/
def removeId {α : Type} (m : List (ℕ × α)) (k : ℕ) : List (ℕ × α) :=
  m.filter (fun e => e.1 ≠ k)

/-- `buildFingerprint(samples)` with the minimum-sample threshold as a
parameter: returns `none` ("not enough data") when
`samples.length < minSamples`, otherwise the means and population
variances of pitch and centroid (`reduce` is `foldl`). -/
def buildFingerprintWith (minSamples : ℕ) (samples : List VoiceSample) :
    Option Fingerprint :=
  if samples.length < minSamples then none
  else
    let pitches := samples.map (fun s => s.pitch)
    let centroids := samples.map (fun s => s.centroid)
    let pitchAvg := pitches.foldl (· + ·) 0 / (pitches.length : ℚ)
    let centroidAvg := centroids.foldl (· + ·) 0 / (centroids.length : ℚ)
    let pitchVar :=
      pitches.foldl (fun sum p => sum + (p - pitchAvg) ^ 2) 0 / (pitches.length : ℚ)
    let centroidVar :=
      centroids.foldl (fun sum c => sum + (c - centroidAvg) ^ 2) 0 / (centroids.length : ℚ)
    some ⟨pitchAvg, pitchVar, centroidAvg, centroidVar⟩

/-- `buildFingerprint(samples)` at the source's `VOICE_PROFILE_MIN_SAMPLES`. -/
def buildFingerprint (samples : List VoiceSample) : Option Fingerprint :=
  buildFingerprintWith VOICE_PROFILE_MIN_SAMPLES samples

/-- `compareFingerprints(fp1, fp2)`: 0 when either input is absent, else
`max(0, 1 - distance*3)` with
`distance = 0.6*|Δ pitchAvg|/440 + 0.4*|Δ centroidAvg|/3800`. -/
def compareFingerprints (fp1 fp2 : Option Fingerprint) : ℚ :=
  match fp1, fp2 with
  | some f1, some f2 =>
    let pitchRange : ℚ := 440
    let pitchDiff := |f1.pitchAvg - f2.pitchAvg| / pitchRange
    let centroidRange : ℚ := 3800
    let centroidDiff := |f1.centroidAvg - f2.centroidAvg| / centroidRange
    let distance := pitchDiff * 0.6 + centroidDiff * 0.4
    max 0 (1 - distance * 3)
  | _, _ => 0

/-- `updateSpeakerProfile(speakerId, fingerprint)` acting on the
`speakerProfiles` map: no-op when the fingerprint is absent; creates
`{ ...fingerprint, sampleCount: 1 }` when no profile exists; otherwise
EWMA with `alpha = min(0.3, 1/(sampleCount+1))` on all four fields and
`sampleCount++`. -/
def updateSpeakerProfile (profiles : List (ℕ × SpeakerProfile)) (speakerId : ℕ)
    (fingerprint : Option Fingerprint) : List (ℕ × SpeakerProfile) :=
  match fingerprint with
  | none => profiles
  | some fp =>
    match lookupId profiles speakerId with
    | none => setId profiles speakerId ⟨fp, 1⟩
    | some existing =>
      let alpha : ℚ := min 0.3 (1 / ((existing.sampleCount : ℚ) + 1))
      setId profiles speakerId
        ⟨⟨existing.pitchAvg * (1 - alpha) + fp.pitchAvg * alpha,
          existing.pitchVar * (1 - alpha) + fp.pitchVar * alpha,
          existing.centroidAvg * (1 - alpha) + fp.centroidAvg * alpha,
          existing.centroidVar * (1 - alpha) + fp.centroidVar * alpha⟩,
         existing.sampleCount + 1⟩

/-- `getSpeakerDifferThreshold()`: maps the 0–100 sensitivity slider to the
internal differ threshold `0.05 + (s/100)*0.45`. -/
def getSpeakerDifferThreshold (speakerSensitivity : ℚ) : ℚ :=
  let s := speakerSensitivity / 100
  0.05 + s * 0.45

/-- The mutable speaker-tracking fields of the app `state` object that the
diarization core reads and writes. -/
structure SpeakerState where
  currentSpeakerId : ℕ
  speakerCount : ℕ
  speakerProfiles : List (ℕ × SpeakerProfile)
  voiceSampleBuffer : List VoiceSample
  lastSpeechTime : Option ℤ
  pendingAnalysis : Bool
  speakerColorMap : List (ℕ × ℕ)
  nextColorIndex : ℕ
  speakerSensitivity : ℚ
deriving DecidableEq, Repr

/-- `silenceGap = state.lastSpeechTime ? (now - state.lastSpeechTime) : 0`. -/
def silenceGapOf (now : ℤ) (st : SpeakerState) : ℤ :=
  match st.lastSpeechTime with
  | some t => now - t
  | none => 0

/-- First block of `detectSpeakerChange`: on a silence gap above the
analysis threshold, flush the segment buffer into the current speaker's
profile, restart sampling (`state.voiceSampleBuffer = []`) and set
`_pendingAnalysis`. -/
def gapPhase (now : ℤ) (st : SpeakerState) : SpeakerState :=
  if silenceGapOf now st > SPEAKER_ANALYSIS_THRESHOLD then
    let currentFingerprint := buildFingerprint st.voiceSampleBuffer
    { st with
        speakerProfiles :=
          updateSpeakerProfile st.speakerProfiles st.currentSpeakerId currentFingerprint,
        voiceSampleBuffer := [],
        pendingAnalysis := true }
  else st

/-- The best-match loop of `detectSpeakerChange`: fold over the profile
entries, skipping the current speaker, tracking `(bestMatch, bestScore)`
initialised to `(-1, 0)` and updated on strictly greater score. -/
def bestOtherFold (current : ℕ) (newFp : Fingerprint)
    (entries : List (ℕ × SpeakerProfile)) : ℤ × ℚ :=
  entries.foldl
    (fun acc e =>
      if e.1 = current then acc
      else
        let score := compareFingerprints (some newFp) (some e.2.toFingerprint)
        if score > acc.2 then ((e.1 : ℤ), score) else acc)
    (-1, 0)

/-- Second block of `detectSpeakerChange`: once a re-evaluation is pending
and the buffer holds enough samples, build the new fingerprint, compare to
the current speaker's profile (similarity 1 when there is none), and
either stay, switch to the best other profile, or mint a new speaker. -/
def analysisPhase (st : SpeakerState) : SpeakerState :=
  if st.pendingAnalysis ∧ VOICE_PROFILE_MIN_SAMPLES ≤ st.voiceSampleBuffer.length then
    match buildFingerprint st.voiceSampleBuffer with
    | none => st
    | some newFingerprint =>
      let currentProfile := lookupId st.speakerProfiles st.currentSpeakerId
      let currentSimilarity : ℚ :=
        match currentProfile with
        | some p => compareFingerprints (some newFingerprint) (some p.toFingerprint)
        | none => 1
      let differThreshold := getSpeakerDifferThreshold st.speakerSensitivity
      if currentSimilarity ≥ differThreshold then
        { st with pendingAnalysis := false }
      else
        let best := bestOtherFold st.currentSpeakerId newFingerprint st.speakerProfiles
        if best.1 ≥ 0 ∧ best.2 ≥ getSpeakerDifferThreshold st.speakerSensitivity then
          { st with currentSpeakerId := best.1.toNat, pendingAnalysis := false }
        else
          { st with
              currentSpeakerId := st.speakerCount,
              speakerCount := st.speakerCount + 1,
              pendingAnalysis := false }
  else st

/-- `detectSpeakerChange()`: gap phase, then analysis phase, then
`state.lastSpeechTime = now`; returns `state.currentSpeakerId` with the
updated state. -/
def detectSpeakerChange (now : ℤ) (st : SpeakerState) : ℕ × SpeakerState :=
  let st1 := gapPhase now st
  let st2 := analysisPhase st1
  let st3 := { st2 with lastSpeechTime := some now }
  (st3.currentSpeakerId, st3)

/-- `getSpeakerColor(speakerId)`: on first sight assign
`nextColorIndex % SPEAKER_COLORS.length` and increment `nextColorIndex`;
return the palette entry at the mapped index. -/
def getSpeakerColor (st : SpeakerState) (speakerId : ℕ) :
    Option SpeakerColor × SpeakerState :=
  match lookupId st.speakerColorMap speakerId with
  | some idx => (SPEAKER_COLORS.get? idx, st)
  | none =>
    let idx := st.nextColorIndex % SPEAKER_COLORS.length
    let st' :=
      { st with
          speakerColorMap := setId st.speakerColorMap speakerId idx,
          nextColorIndex := st.nextColorIndex + 1 }
    (SPEAKER_COLORS.get? idx, st')

/-- The no-saved-data branch of `resetSpeakerState()`: empty store, one
implicit speaker slot (`speakerCount = 1`, `currentSpeakerId = 0`), buffer
and pending flag cleared. -/
def resetSpeakerStateEmpty (st : SpeakerState) : SpeakerState :=
  { st with
      speakerProfiles := [],
      speakerColorMap := [],
      nextColorIndex := 0,
      speakerCount := 1,
      currentSpeakerId := 0,
      lastSpeechTime := none,
      voiceSampleBuffer := [],
      pendingAnalysis := false }

/-- `collectVoiceSample()`: push the sample only when both pitch and
centroid are positive (meaningful audio). -/
def collectVoiceSample (st : SpeakerState) (s : VoiceSample) : SpeakerState :=
  if s.pitch > 0 ∧ s.centroid > 0 then
    { st with voiceSampleBuffer := st.voiceSampleBuffer ++ [s] }
  else st

/-- The delete handler of `renderSavedSpeakers()` for one saved speaker:
`delete state.speakerProfiles[id]` and `delete state.speakerColorMap[id]`. -/
def deleteSavedSpeaker (st : SpeakerState) (id : ℕ) : SpeakerState :=
  { st with
      speakerProfiles := removeId st.speakerProfiles id,
      speakerColorMap := removeId st.speakerColorMap id }

/-- The session operations that touch the speaker-tracking state. -/
inductive SpeakerOp where
  | speech (now : ℤ)
  | sample (s : VoiceSample)
  | deleteSaved (id : ℕ)
deriving DecidableEq, Repr

/-- Apply one session operation to the speaker state. -/
def applyOp (st : SpeakerState) : SpeakerOp → SpeakerState
  | .speech now => (detectSpeakerChange now st).2
  | .sample s => collectVoiceSample st s
  | .deleteSaved id => deleteSavedSpeaker st id

/-- Run a list of session operations. -/
def runOps (st : SpeakerState) (ops : List SpeakerOp) : SpeakerState :=
  ops.foldl applyOp st

/-- The ids currently present in the profile store. -/
def profileKeys (st : SpeakerState) : List ℕ :=
  st.speakerProfiles.map Prod.fst

/-- The spec's density invariant on stored speaker ids: the id set is
downward closed (dense integers starting at 0). -/
def denseFromZero (st : SpeakerState) : Prop :=
  ∀ k ∈ profileKeys st, ∀ j < k, j ∈ profileKeys st

instance (st : SpeakerState) : Decidable (denseFromZero st) := by
  unfold denseFromZero; infer_instance

/-- All stored speaker ids and the current id lie below `speakerCount`. -/
def idsBounded (st : SpeakerState) : Prop :=
  st.currentSpeakerId < st.speakerCount ∧ ∀ k ∈ profileKeys st, k < st.speakerCount

/-- A sequence of `getSpeakerColor` calls, one per listed id. -/
def runColors (st : SpeakerState) (ids : List ℕ) : SpeakerState :=
  ids.foldl (fun s i => (getSpeakerColor s i).2) st

/-- A concrete speaker state as produced by the no-saved-data branch of
`resetSpeakerState()` with the default sensitivity setting (15). -/
def demoState : SpeakerState :=
  { currentSpeakerId := 0
    speakerCount := 1
    speakerProfiles := []
    voiceSampleBuffer := []
    lastSpeechTime := none
    pendingAnalysis := false
    speakerColorMap := []
    nextColorIndex := 0
    speakerSensitivity := 15 }

/-- A concrete session trace: one voice per segment, a 3s silence gap that
flushes speaker 0's profile, a clearly different second voice that mints
speaker 1, a gap that stores speaker 1's profile, then deletion of saved
speaker 0. -/
def c8TraceOps : List SpeakerOp :=
  [.speech 0,
   .sample ⟨120, 1000⟩, .sample ⟨120, 1000⟩, .sample ⟨120, 1000⟩,
   .sample ⟨120, 1000⟩, .sample ⟨120, 1000⟩,
   .speech 3000,
   .sample ⟨560, 1000⟩, .sample ⟨560, 1000⟩, .sample ⟨560, 1000⟩,
   .sample ⟨560, 1000⟩, .sample ⟨560, 1000⟩,
   .speech 3500,
   .speech 6000,
   .deleteSaved 0]

/-- A concrete state mid-trace: re-evaluation pending, five fresh samples
of a voice (560 Hz) far from the stored profile of speaker 0 (120 Hz). -/
def mintDemoState : SpeakerState :=
  { currentSpeakerId := 0
    speakerCount := 1
    speakerProfiles := [(0, ⟨⟨120, 0, 1000, 0⟩, 1⟩)]
    voiceSampleBuffer := [⟨560, 1000⟩, ⟨560, 1000⟩, ⟨560, 1000⟩, ⟨560, 1000⟩, ⟨560, 1000⟩]
    lastSpeechTime := some 3000
    pendingAnalysis := true
    speakerColorMap := []
    nextColorIndex := 0
    speakerSensitivity := 15 }

/-- A concrete state with a pending re-evaluation whose fresh samples
match the stored profile of the current speaker exactly. -/
def pendingDemoState : SpeakerState :=
  { currentSpeakerId := 0
    speakerCount := 1
    speakerProfiles := [(0, ⟨⟨120, 0, 1000, 0⟩, 1⟩)]
    voiceSampleBuffer := [⟨120, 1000⟩, ⟨120, 1000⟩, ⟨120, 1000⟩, ⟨120, 1000⟩, ⟨120, 1000⟩]
    lastSpeechTime := some 0
    pendingAnalysis := true
    speakerColorMap := []
    nextColorIndex := 0
    speakerSensitivity := 15 }

/-- Arithmetic mean of a list of rationals. -/
def listMean (l : List ℚ) : ℚ := l.sum / (l.length : ℚ)

/-- Population variance of a list of rationals. -/
def listPopVar (l : List ℚ) : ℚ :=
  (l.map (fun x => (x - listMean l) ^ 2)).sum / (l.length : ℚ)

lemma foldl_add_map {α : Type} (f : α → ℚ) :
    ∀ (l : List α) (a : ℚ), l.foldl (fun s x => s + f x) a = a + (l.map f).sum
  | [], a => by simp
  | x :: l, a => by
    simp only [List.foldl_cons, List.map_cons, List.sum_cons, foldl_add_map f l]
    ring

lemma foldl_add_id (l : List ℚ) : l.foldl (· + ·) 0 = l.sum := by
  have h := foldl_add_map (fun x : ℚ => x) l 0
  simpa using h

lemma lookupId_setId_self {α : Type} (m : List (ℕ × α)) (k : ℕ) (v : α) :
    lookupId (setId m k v) k = some v := by
  induction m with
  | nil => simp [setId, lookupId]
  | cons e rest ih =>
    obtain ⟨k', v'⟩ := e
    by_cases h : k = k'
    · subst h; simp [setId, lookupId]
    · by_cases h2 : k < k'
      · simp [setId, h, h2, lookupId]
      · simp [setId, h, h2, lookupId, Ne.symm h, ih]

lemma lookupId_setId_ne {α : Type} (m : List (ℕ × α)) (k k' : ℕ) (v : α)
    (h : k' ≠ k) : lookupId (setId m k v) k' = lookupId m k' := by
  induction m with
  | nil => simp [setId, lookupId, Ne.symm h]
  | cons e rest ih =>
    obtain ⟨k0, v0⟩ := e
    by_cases h1 : k = k0
    · subst h1
      simp [setId, lookupId, Ne.symm h]
    · by_cases h2 : k < k0
      · simp [setId, h1, h2, lookupId, Ne.symm h]
      · simp [setId, h1, h2, lookupId, ih]

lemma mem_keys_setId {α : Type} (m : List (ℕ × α)) (k : ℕ) (v : α) :
    ∀ j ∈ (setId m k v).map Prod.fst, j = k ∨ j ∈ m.map Prod.fst := by
  induction m with
  | nil => intro j hj; simp [setId] at hj; exact Or.inl hj
  | cons e rest ih =>
    obtain ⟨k0, v0⟩ := e
    intro j hj
    by_cases h1 : k = k0
    · subst h1
      simp [setId] at hj ⊢
      tauto
    · by_cases h2 : k < k0
      · simp only [setId, if_neg h1, if_pos h2, List.map_cons, List.mem_cons] at hj ⊢
        tauto
      · simp only [setId, if_neg h1, if_neg h2, List.map_cons, List.mem_cons] at hj ⊢
        rcases hj with hj | hj
        · tauto
        · rcases ih j hj with h | h <;> tauto

lemma mem_keys_removeId {α : Type} (m : List (ℕ × α)) (k : ℕ) :
    ∀ j ∈ (removeId m k).map Prod.fst, j ∈ m.map Prod.fst := by
  intro j hj
  rcases List.mem_map.mp hj with ⟨e, he, rfl⟩
  exact List.mem_map_of_mem Prod.fst (List.mem_of_mem_filter he)

/-- C4: `compareFingerprints` returns 0 when either argument is absent;
otherwise it returns
`max(0, 1 - 3*(0.6*|Δ pitchAvg|/440 + 0.4*|Δ centroidAvg|/3800))`;
self-similarity is 1; and the result is 0 exactly when the weighted
distance is at least 1/3. -/
theorem compareFingerprints_spec :
    (∀ b, compareFingerprints none b = 0) ∧
    (∀ a, compareFingerprints a none = 0) ∧
    (∀ f g, compareFingerprints (some f) (some g) =
      max 0 (1 - 3 * (0.6 * |f.pitchAvg - g.pitchAvg| / 440 +
                      0.4 * |f.centroidAvg - g.centroidAvg| / 3800))) ∧
    (∀ f, compareFingerprints (some f) (some f) = 1) ∧
    (∀ f g, compareFingerprints (some f) (some g) = 0 ↔
      1 / 3 ≤ 0.6 * |f.pitchAvg - g.pitchAvg| / 440 +
              0.4 * |f.centroidAvg - g.centroidAvg| / 3800) := by
  refine ⟨?_, ?_, ?_, ?_, ?_⟩
  · intro b; cases b <;> rfl
  · intro a; cases a <;> rfl
  · intro f g
    show max 0 (1 - (|f.pitchAvg - g.pitchAvg| / 440 * 0.6 +
        |f.centroidAvg - g.centroidAvg| / 3800 * 0.4) * 3) = _
    congr 1
    ring
  · intro f
    show max 0 (1 - (|f.pitchAvg - f.pitchAvg| / 440 * 0.6 +
        |f.centroidAvg - f.centroidAvg| / 3800 * 0.4) * 3) = 1
    simp
  · intro f g
    show max 0 (1 - (|f.pitchAvg - g.pitchAvg| / 440 * 0.6 +
        |f.centroidAvg - g.centroidAvg| / 3800 * 0.4) * 3) = 0 ↔ _
    rw [max_eq_left_iff]
    constructor <;> intro h <;> linarith

/-- C6: `buildFingerprint` returns the absent sentinel iff
`samples.length < minSamples`, for every `minSamples`; otherwise the
fingerprint's averages are the arithmetic means and its variances the
population variances of the samples' pitch and centroid values. -/
theorem buildFingerprint_spec (m : ℕ) (samples : List VoiceSample) :
    (buildFingerprintWith m samples = none ↔ samples.length < m) ∧
    ∀ fp, buildFingerprintWith m samples = some fp →
      fp.pitchAvg = listMean (samples.map (fun s => s.pitch)) ∧
      fp.pitchVar = listPopVar (samples.map (fun s => s.pitch)) ∧
      fp.centroidAvg = listMean (samples.map (fun s => s.centroid)) ∧
      fp.centroidVar = listPopVar (samples.map (fun s => s.centroid)) := by
  by_cases h : samples.length < m
  · constructor
    · simp [buildFingerprintWith, h]
    · intro fp hfp
      simp [buildFingerprintWith, h] at hfp
  · constructor
    · simp [buildFingerprintWith, h]
    · intro fp hfp
      simp only [buildFingerprintWith, if_neg h, Option.some.injEq] at hfp
      subst hfp
      refine ⟨?_, ?_, ?_, ?_⟩
      · show (samples.map (fun s => s.pitch)).foldl (· + ·) 0 /
            ((samples.map (fun s => s.pitch)).length : ℚ) = _
        rw [foldl_add_id, listMean]
      · show (samples.map (fun s => s.pitch)).foldl
            (fun sum p => sum + (p - _) ^ 2) 0 /
            ((samples.map (fun s => s.pitch)).length : ℚ) = _
        rw [foldl_add_map, listPopVar, listMean, foldl_add_id]
        simp
      · show (samples.map (fun s => s.centroid)).foldl (· + ·) 0 /
            ((samples.map (fun s => s.centroid)).length : ℚ) = _
        rw [foldl_add_id, listMean]
      · show (samples.map (fun s => s.centroid)).foldl
            (fun sum c => sum + (c - _) ^ 2) 0 /
            ((samples.map (fun s => s.centroid)).length : ℚ) = _
        rw [foldl_add_map, listPopVar, listMean, foldl_add_id]
        simp

/-- Witness for C6 at a concrete sample list: five samples, fingerprint
built, mean and population variance checked. -/
theorem buildFingerprint_spec_witness :
    buildFingerprintWith 5
        [⟨100, 1000⟩, ⟨110, 1100⟩, ⟨120, 1200⟩, ⟨130, 1300⟩, ⟨140, 1400⟩] =
      some ⟨120, 200, 1200, 20000⟩ ∧
    (120 : ℚ) = listMean [100, 110, 120, 130, 140] ∧
    (200 : ℚ) = listPopVar [100, 110, 120, 130, 140] := by
  have hb : buildFingerprintWith 5
      [⟨100, 1000⟩, ⟨110, 1100⟩, ⟨120, 1200⟩, ⟨130, 1300⟩, ⟨140, 1400⟩] =
      some ⟨120, 200, 1200, 20000⟩ := by
    norm_num [buildFingerprintWith, Fingerprint.mk.injEq]
  have h := (buildFingerprint_spec 5
    [⟨100, 1000⟩, ⟨110, 1100⟩, ⟨120, 1200⟩, ⟨130, 1300⟩, ⟨140, 1400⟩]).2
    ⟨120, 200, 1200, 20000⟩ hb
  refine ⟨hb, ?_, ?_⟩
  · simpa using h.1
  · simpa using h.2.1

lemma updateSpeakerProfile_lookup_some (profiles : List (ℕ × SpeakerProfile))
    (speakerId : ℕ) (fp : Fingerprint) (p : SpeakerProfile)
    (h : lookupId profiles speakerId = some p) :
    ∃ p', lookupId (updateSpeakerProfile profiles speakerId (some fp)) speakerId =
        some p' ∧
      (let alpha : ℚ := min 0.3 (1 / ((p.sampleCount : ℚ) + 1))
       p'.pitchAvg = p.pitchAvg * (1 - alpha) + fp.pitchAvg * alpha ∧
       p'.pitchVar = p.pitchVar * (1 - alpha) + fp.pitchVar * alpha ∧
       p'.centroidAvg = p.centroidAvg * (1 - alpha) + fp.centroidAvg * alpha ∧
       p'.centroidVar = p.centroidVar * (1 - alpha) + fp.centroidVar * alpha) ∧
      p'.sampleCount = p.sampleCount + 1 := by
  rw [updateSpeakerProfile, h]
  exact ⟨_, lookupId_setId_self profiles speakerId _, ⟨rfl, rfl, rfl, rfl⟩, rfl⟩

/-- C5: `updateSpeakerProfile` is a no-op on an absent fingerprint; creates
a profile with the fingerprint's fields and `sampleCount = 1` when none
exists; otherwise updates all four fields by EWMA with the same
`alpha = min(0.3, 1/(sampleCount+1))` and increments `sampleCount` by 1. -/
theorem updateSpeakerProfile_spec (profiles : List (ℕ × SpeakerProfile))
    (speakerId : ℕ) :
    (updateSpeakerProfile profiles speakerId none = profiles) ∧
    (∀ fp, lookupId profiles speakerId = none →
      lookupId (updateSpeakerProfile profiles speakerId (some fp)) speakerId =
        some ⟨fp, 1⟩) ∧
    (∀ fp p, lookupId profiles speakerId = some p →
      ∃ p', lookupId (updateSpeakerProfile profiles speakerId (some fp)) speakerId =
          some p' ∧
        (let alpha : ℚ := min 0.3 (1 / ((p.sampleCount : ℚ) + 1))
         p'.pitchAvg = p.pitchAvg * (1 - alpha) + fp.pitchAvg * alpha ∧
         p'.pitchVar = p.pitchVar * (1 - alpha) + fp.pitchVar * alpha ∧
         p'.centroidAvg = p.centroidAvg * (1 - alpha) + fp.centroidAvg * alpha ∧
         p'.centroidVar = p.centroidVar * (1 - alpha) + fp.centroidVar * alpha) ∧
        p'.sampleCount = p.sampleCount + 1) := by
  refine ⟨rfl, ?_, ?_⟩
  · intro fp h
    rw [updateSpeakerProfile, h]
    exact lookupId_setId_self profiles speakerId ⟨fp, 1⟩
  · intro fp p h
    rw [updateSpeakerProfile, h]
    exact ⟨_, lookupId_setId_self profiles speakerId _,
      ⟨rfl, rfl, rfl, rfl⟩, rfl⟩

/-- Witness for C5 at concrete inputs: creation on a missing profile and
an EWMA update on an existing one (`sampleCount` 4, so `alpha = 1/5`). -/
theorem updateSpeakerProfile_spec_witness :
    updateSpeakerProfile [(0, ⟨⟨120, 4, 1000, 9⟩, 4⟩)] 0 none =
      [(0, ⟨⟨120, 4, 1000, 9⟩, 4⟩)] ∧
    lookupId (updateSpeakerProfile [] 7 (some ⟨150, 2, 1200, 3⟩)) 7 =
      some ⟨⟨150, 2, 1200, 3⟩, 1⟩ ∧
    ∃ p', lookupId
        (updateSpeakerProfile [(0, ⟨⟨120, 4, 1000, 9⟩, 4⟩)] 0
          (some ⟨170, 4, 1500, 9⟩)) 0 = some p' ∧
      p'.pitchAvg = 120 * (1 - min 0.3 (1 / ((4 : ℚ) + 1))) +
        170 * min 0.3 (1 / ((4 : ℚ) + 1)) ∧
      p'.sampleCount = 5 := by
  have h1 := (updateSpeakerProfile_spec [(0, ⟨⟨120, 4, 1000, 9⟩, 4⟩)] 0).1
  have h2 := (updateSpeakerProfile_spec [] 7).2.1 ⟨150, 2, 1200, 3⟩ rfl
  have h3 := (updateSpeakerProfile_spec [(0, ⟨⟨120, 4, 1000, 9⟩, 4⟩)] 0).2.2
    ⟨170, 4, 1500, 9⟩ ⟨⟨120, 4, 1000, 9⟩, 4⟩ rfl
  obtain ⟨p', hp', hfields, hcount⟩ := h3
  exact ⟨h1, h2, p', hp', hfields.1, hcount⟩

/-- C7 counterexample: a call to `updateSpeakerProfile` with an absent
fingerprint on an existing profile (here id 0 with `sampleCount` 5) is a
no-op, so `sampleCount` stays 5 and does not strictly increase. -/
theorem updateSpeakerProfile_sampleCount_counterexample :
    updateSpeakerProfile [(0, ⟨⟨120, 0, 1000, 0⟩, 5⟩)] 0 none =
      [(0, ⟨⟨120, 0, 1000, 0⟩, 5⟩)] ∧
    (lookupId (updateSpeakerProfile [(0, ⟨⟨120, 0, 1000, 0⟩, 5⟩)] 0 none) 0).map
        SpeakerProfile.sampleCount = some 5 ∧
    (lookupId (updateSpeakerProfile [(0, ⟨⟨120, 0, 1000, 0⟩, 5⟩)] 0 none) 0).map
        SpeakerProfile.sampleCount ≠ some 6 := by
  refine ⟨rfl, rfl, by simp [updateSpeakerProfile, lookupId]⟩

/-- C7 (amended): every `updateSpeakerProfile` call with a present
fingerprint on an existing profile increments its `sampleCount` by exactly
1, and no `updateSpeakerProfile` call ever lowers any profile's
`sampleCount`. -/
theorem updateSpeakerProfile_sampleCount_mono
    (profiles : List (ℕ × SpeakerProfile)) (speakerId k : ℕ)
    (ofp : Option Fingerprint) (fp : Fingerprint) (p : SpeakerProfile) :
    (lookupId profiles speakerId = some p →
      ∃ p', lookupId (updateSpeakerProfile profiles speakerId (some fp)) speakerId =
          some p' ∧ p'.sampleCount = p.sampleCount + 1) ∧
    (lookupId profiles k = some p →
      ∃ p', lookupId (updateSpeakerProfile profiles speakerId ofp) k = some p' ∧
        p.sampleCount ≤ p'.sampleCount) := by
  constructor
  · intro h
    rw [updateSpeakerProfile, h]
    exact ⟨_, lookupId_setId_self profiles speakerId _, rfl⟩
  · intro h
    match ofp with
    | none => exact ⟨p, h, le_refl _⟩
    | some fp' =>
      by_cases hk : k = speakerId
      · subst hk
        rw [updateSpeakerProfile, h]
        exact ⟨_, lookupId_setId_self profiles k _, Nat.le_succ _⟩
      · rw [updateSpeakerProfile]
        match hl : lookupId profiles speakerId with
        | none =>
          rw [lookupId_setId_ne profiles speakerId k _ hk]
          exact ⟨p, h, le_refl _⟩
        | some existing =>
          rw [lookupId_setId_ne profiles speakerId k _ hk]
          exact ⟨p, h, le_refl _⟩

/-- Witness for C7 (amended) at a concrete profile store: an update with a
present fingerprint takes `sampleCount` from 4 to 5, and an absent-
fingerprint update does not lower it. -/
theorem updateSpeakerProfile_sampleCount_mono_witness :
    (∃ p', lookupId
        (updateSpeakerProfile [(0, ⟨⟨120, 4, 1000, 9⟩, 4⟩)] 0
          (some ⟨170, 4, 1500, 9⟩)) 0 = some p' ∧
      p'.sampleCount = 4 + 1) ∧
    (∃ p', lookupId
        (updateSpeakerProfile [(0, ⟨⟨120, 4, 1000, 9⟩, 4⟩)] 0 none) 0 = some p' ∧
      4 ≤ p'.sampleCount) := by
  have h := updateSpeakerProfile_sampleCount_mono
    [(0, ⟨⟨120, 4, 1000, 9⟩, 4⟩)] 0 0 none ⟨170, 4, 1500, 9⟩
    ⟨⟨120, 4, 1000, 9⟩, 4⟩
  exact ⟨h.1 rfl, h.2 rfl⟩

lemma ewma_between (a b al : ℚ) (h0 : 0 < al) (h1 : al ≤ 1) :
    min a b ≤ a * (1 - al) + b * al ∧ a * (1 - al) + b * al ≤ max a b := by
  rcases le_total a b with h | h
  · rw [min_eq_left h, max_eq_right h]
    constructor <;> nlinarith
  · rw [min_eq_right h, max_eq_left h]
    constructor <;> nlinarith

/-- C10: for every EWMA update of an existing profile with a present
fingerprint, `alpha = min(0.3, 1/(sampleCount+1))` lies in `(0, 0.3]`, so
each updated field is a strict convex combination of the old value and the
fingerprint's value, lies between the two, and stays nonnegative when both
are nonnegative. -/
theorem updateSpeakerProfile_alpha_spec (profiles : List (ℕ × SpeakerProfile))
    (speakerId : ℕ) (fp : Fingerprint) (p : SpeakerProfile)
    (h : lookupId profiles speakerId = some p) :
    0 < min 0.3 (1 / ((p.sampleCount : ℚ) + 1)) ∧
    min 0.3 (1 / ((p.sampleCount : ℚ) + 1)) ≤ 0.3 ∧
    0 < 1 - min 0.3 (1 / ((p.sampleCount : ℚ) + 1)) ∧
    ∃ p', lookupId (updateSpeakerProfile profiles speakerId (some fp)) speakerId =
        some p' ∧
      (min p.pitchAvg fp.pitchAvg ≤ p'.pitchAvg ∧
        p'.pitchAvg ≤ max p.pitchAvg fp.pitchAvg) ∧
      (min p.pitchVar fp.pitchVar ≤ p'.pitchVar ∧
        p'.pitchVar ≤ max p.pitchVar fp.pitchVar) ∧
      (min p.centroidAvg fp.centroidAvg ≤ p'.centroidAvg ∧
        p'.centroidAvg ≤ max p.centroidAvg fp.centroidAvg) ∧
      (min p.centroidVar fp.centroidVar ≤ p'.centroidVar ∧
        p'.centroidVar ≤ max p.centroidVar fp.centroidVar) ∧
      (0 ≤ p.pitchAvg → 0 ≤ fp.pitchAvg → 0 ≤ p'.pitchAvg) ∧
      (0 ≤ p.pitchVar → 0 ≤ fp.pitchVar → 0 ≤ p'.pitchVar) ∧
      (0 ≤ p.centroidAvg → 0 ≤ fp.centroidAvg → 0 ≤ p'.centroidAvg) ∧
      (0 ≤ p.centroidVar → 0 ≤ fp.centroidVar → 0 ≤ p'.centroidVar) := by
  have hpos : (0 : ℚ) < 1 / ((p.sampleCount : ℚ) + 1) := by
    apply div_pos one_pos
    positivity
  have halpha : 0 < min 0.3 (1 / ((p.sampleCount : ℚ) + 1)) := by
    apply lt_min (by norm_num) hpos
  have hle : min 0.3 (1 / ((p.sampleCount : ℚ) + 1)) ≤ 0.3 := min_le_left _ _
  have hlt1 : min 0.3 (1 / ((p.sampleCount : ℚ) + 1)) ≤ 1 := by
    calc min 0.3 (1 / ((p.sampleCount : ℚ) + 1)) ≤ 0.3 := hle
    _ ≤ 1 := by norm_num
  refine ⟨halpha, hle, by linarith, ?_⟩
  obtain ⟨p', hp', hfields, _⟩ :=
    updateSpeakerProfile_lookup_some profiles speakerId fp p h
  have h1 := ewma_between p.pitchAvg fp.pitchAvg _ halpha hlt1
  have h2 := ewma_between p.pitchVar fp.pitchVar _ halpha hlt1
  have h3 := ewma_between p.centroidAvg fp.centroidAvg _ halpha hlt1
  have h4 := ewma_between p.centroidVar fp.centroidVar _ halpha hlt1
  obtain ⟨e1, e2, e3, e4⟩ := hfields
  rw [← e1] at h1
  rw [← e2] at h2
  rw [← e3] at h3
  rw [← e4] at h4
  refine ⟨p', hp', h1, h2, h3, h4, ?_, ?_, ?_, ?_⟩ <;> intro ha hb
  · exact le_trans (le_min ha hb) h1.1
  · exact le_trans (le_min ha hb) h2.1
  · exact le_trans (le_min ha hb) h3.1
  · exact le_trans (le_min ha hb) h4.1

/-- Witness for C10 at a concrete profile (`sampleCount` 4, fields 120/4/
1000/9) and fingerprint (170/4/1500/9). -/
theorem updateSpeakerProfile_alpha_spec_witness :
    0 < min (0.3 : ℚ) (1 / ((4 : ℕ) + 1 : ℚ)) ∧
    ∃ p', lookupId
        (updateSpeakerProfile [(0, ⟨⟨120, 4, 1000, 9⟩, 4⟩)] 0
          (some ⟨170, 4, 1500, 9⟩)) 0 = some p' ∧
      min (120 : ℚ) 170 ≤ p'.pitchAvg ∧ p'.pitchAvg ≤ max (120 : ℚ) 170 := by
  have h := updateSpeakerProfile_alpha_spec [(0, ⟨⟨120, 4, 1000, 9⟩, 4⟩)] 0
    ⟨170, 4, 1500, 9⟩ ⟨⟨120, 4, 1000, 9⟩, 4⟩ rfl
  obtain ⟨h0, -, -, p', hp', hf, -⟩ := h
  exact ⟨h0, p', hp', hf.1, hf.2⟩

/-- C3 counterexample: sensitivities 0 < 100, yet the threshold at 100
(namely 0.50) is not lower than the threshold at 0 (namely 0.05) — the
mapping is increasing, not decreasing. -/
theorem getSpeakerDifferThreshold_counterexample :
    (0 : ℚ) < 100 ∧
    getSpeakerDifferThreshold 0 = 0.05 ∧
    getSpeakerDifferThreshold 100 = 0.5 ∧
    ¬ getSpeakerDifferThreshold 100 < getSpeakerDifferThreshold 0 := by
  norm_num [getSpeakerDifferThreshold]

/-- C3 (amended): raising sensitivity strictly RAISES `differThreshold`
(which makes switches easier, since switching requires similarity below
the threshold), and the map is linear from [0, 100] onto [0.05, 0.50]. -/
theorem getSpeakerDifferThreshold_mono (s1 s2 : ℚ)
    (h1 : 0 ≤ s1) (h2 : s1 < s2) (h3 : s2 ≤ 100) :
    getSpeakerDifferThreshold s1 < getSpeakerDifferThreshold s2 ∧
    (∀ s, getSpeakerDifferThreshold s = 0.05 + (s / 100) * 0.45) ∧
    0.05 ≤ getSpeakerDifferThreshold s1 ∧
    getSpeakerDifferThreshold s2 ≤ 0.5 ∧
    (∀ t : ℚ, 0.05 ≤ t → t ≤ 0.5 →
      ∃ s, 0 ≤ s ∧ s ≤ 100 ∧ getSpeakerDifferThreshold s = t) := by
  have hform : ∀ s, getSpeakerDifferThreshold s = 0.05 + s * (0.45 / 100) := by
    intro s
    rw [getSpeakerDifferThreshold]
    ring
  refine ⟨?_, fun s => by rw [hform]; ring, ?_, ?_, ?_⟩
  · rw [hform, hform]; linarith
  · rw [hform]; linarith
  · rw [hform]; linarith
  · intro t ht1 ht2
    refine ⟨(t - 0.05) * (100 / 0.45), by nlinarith, by nlinarith, ?_⟩
    rw [hform]
    ring

/-- Witness for C3 (amended) at sensitivities 10 < 20, with the midpoint
threshold 0.25 hit from within the slider range. -/
theorem getSpeakerDifferThreshold_mono_witness :
    getSpeakerDifferThreshold 10 < getSpeakerDifferThreshold 20 ∧
    ∃ s, 0 ≤ s ∧ s ≤ 100 ∧ getSpeakerDifferThreshold s = 0.25 := by
  have h := getSpeakerDifferThreshold_mono 10 20
    (by norm_num) (by norm_num) (by norm_num)
  exact ⟨h.1, h.2.2.2.2 0.25 (by norm_num) (by norm_num)⟩

/-- C2: a silence gap never changes the returned speaker id by itself: on
the event where the gap is detected (the buffer is restarted), and on any
event where fewer than `minSamples` fresh samples have accumulated,
`detectSpeakerChange` returns the previous current speaker id. -/
theorem detectSpeakerChange_gap_keeps_speaker (now : ℤ) (st : SpeakerState)
    (h : silenceGapOf now st > SPEAKER_ANALYSIS_THRESHOLD ∨
      st.voiceSampleBuffer.length < VOICE_PROFILE_MIN_SAMPLES) :
    (detectSpeakerChange now st).1 = st.currentSpeakerId := by
  by_cases hgap : silenceGapOf now st > SPEAKER_ANALYSIS_THRESHOLD
  · simp only [detectSpeakerChange, gapPhase, if_pos hgap, analysisPhase]
    norm_num [VOICE_PROFILE_MIN_SAMPLES]
  · have hlen : st.voiceSampleBuffer.length < VOICE_PROFILE_MIN_SAMPLES :=
      h.resolve_left hgap
    have hcond : ¬(st.pendingAnalysis = true ∧
        VOICE_PROFILE_MIN_SAMPLES ≤ st.voiceSampleBuffer.length) :=
      fun hc => absurd hc.2 (Nat.not_le.mpr hlen)
    simp only [detectSpeakerChange, gapPhase, if_neg hgap, analysisPhase,
      if_neg hcond]

/-- Witness for C2: a speech event on the fresh default state (empty
buffer, so fewer than `minSamples` samples) returns speaker 0 unchanged. -/
theorem detectSpeakerChange_gap_keeps_speaker_witness :
    (silenceGapOf 100 demoState > SPEAKER_ANALYSIS_THRESHOLD ∨
      demoState.voiceSampleBuffer.length < VOICE_PROFILE_MIN_SAMPLES) ∧
    (detectSpeakerChange 100 demoState).1 = demoState.currentSpeakerId := by
  have hh : silenceGapOf 100 demoState > SPEAKER_ANALYSIS_THRESHOLD ∨
      demoState.voiceSampleBuffer.length < VOICE_PROFILE_MIN_SAMPLES := by
    right; decide
  exact ⟨hh, detectSpeakerChange_gap_keeps_speaker 100 demoState hh⟩

lemma runColors_preserves (ids : List ℕ) :
    ∀ (st : SpeakerState) (j : ℕ) (v : ℕ),
      lookupId st.speakerColorMap j = some v →
      lookupId (runColors st ids).speakerColorMap j = some v := by
  induction ids with
  | nil => intro st j v h; exact h
  | cons i ids ih =>
    intro st j v h
    show lookupId (runColors (getSpeakerColor st i).2 ids).speakerColorMap j = some v
    apply ih
    rw [getSpeakerColor]
    match hl : lookupId st.speakerColorMap i with
    | some idx => exact h
    | none =>
      show lookupId (setId st.speakerColorMap i _) j = some v
      have hne : j ≠ i := by
        intro hji; rw [hji, hl] at h; exact Option.noConfusion h
      rw [lookupId_setId_ne _ _ _ _ hne]
      exact h

lemma runColors_assigns (ids : List ℕ) :
    ∀ (st : SpeakerState), ids.Nodup →
      (∀ i ∈ ids, lookupId st.speakerColorMap i = none) →
      (runColors st ids).nextColorIndex = st.nextColorIndex + ids.length ∧
      ∀ (k : ℕ) (hk : k < ids.length),
        lookupId (runColors st ids).speakerColorMap (ids.get ⟨k, hk⟩) =
          some ((st.nextColorIndex + k) % SPEAKER_COLORS.length) := by
  induction ids with
  | nil =>
    intro st _ _
    exact ⟨rfl, fun k hk => absurd hk (Nat.not_lt_zero k)⟩
  | cons i ids ih =>
    intro st hnd hfresh
    have hi : lookupId st.speakerColorMap i = none := hfresh i (List.mem_cons_self i ids)
    have hstep : (getSpeakerColor st i).2.speakerColorMap =
        setId st.speakerColorMap i (st.nextColorIndex % SPEAKER_COLORS.length) ∧
        (getSpeakerColor st i).2.nextColorIndex = st.nextColorIndex + 1 := by
      rw [getSpeakerColor, hi]
      exact ⟨rfl, rfl⟩
    have hfresh' : ∀ j ∈ ids, lookupId (getSpeakerColor st i).2.speakerColorMap j = none := by
      intro j hj
      have hji : j ≠ i := by
        intro hji
        rw [hji] at hj
        exact (List.nodup_cons.mp hnd).1 hj
      rw [hstep.1, lookupId_setId_ne _ _ _ _ hji]
      exact hfresh j (List.mem_cons_of_mem i hj)
    have hih := ih (getSpeakerColor st i).2 (List.nodup_cons.mp hnd).2 hfresh'
    constructor
    · show (runColors (getSpeakerColor st i).2 ids).nextColorIndex = _
      rw [hih.1, hstep.2, List.length_cons]
      omega
    · intro k hk
      match k with
      | 0 =>
        show lookupId (runColors (getSpeakerColor st i).2 ids).speakerColorMap i =
          some ((st.nextColorIndex + 0) % SPEAKER_COLORS.length)
        apply runColors_preserves
        rw [hstep.1, Nat.add_zero]
        exact lookupId_setId_self _ _ _
      | k + 1 =>
        have hk' : k < ids.length := Nat.lt_of_succ_lt_succ hk
        have := hih.2 k hk'
        rw [hstep.2] at this
        show lookupId (runColors (getSpeakerColor st i).2 ids).speakerColorMap
          (ids.get ⟨k, hk'⟩) = some ((st.nextColorIndex + (k + 1)) % SPEAKER_COLORS.length)
        rw [this]
        congr 2
        omega

/-- C9: `getSpeakerColor` assigns, on first sight of an id, palette index
`nextColorIndex % 8` and increments `nextColorIndex`; later calls with the
same id return the same color and leave the state unchanged; ids are
colored in first-seen order (the k-th fresh id gets index
`(nextColorIndex + k) % 8`); and from a reset state, the 9th of 9 distinct
ids reuses palette index 0. -/
theorem getSpeakerColor_spec :
    (∀ (st : SpeakerState) (id : ℕ), lookupId st.speakerColorMap id = none →
      (getSpeakerColor st id).2.speakerColorMap =
        setId st.speakerColorMap id (st.nextColorIndex % SPEAKER_COLORS.length) ∧
      (getSpeakerColor st id).2.nextColorIndex = st.nextColorIndex + 1 ∧
      lookupId (getSpeakerColor st id).2.speakerColorMap id =
        some (st.nextColorIndex % SPEAKER_COLORS.length)) ∧
    (∀ (st : SpeakerState) (id idx : ℕ), lookupId st.speakerColorMap id = some idx →
      getSpeakerColor st id = (SPEAKER_COLORS.get? idx, st)) ∧
    (∀ (st : SpeakerState) (id : ℕ),
      getSpeakerColor (getSpeakerColor st id).2 id =
        ((getSpeakerColor st id).1, (getSpeakerColor st id).2)) ∧
    (∀ (st : SpeakerState) (ids : List ℕ), ids.Nodup →
      (∀ i ∈ ids, lookupId st.speakerColorMap i = none) →
      ∀ (k : ℕ) (hk : k < ids.length),
        lookupId (runColors st ids).speakerColorMap (ids.get ⟨k, hk⟩) =
          some ((st.nextColorIndex + k) % SPEAKER_COLORS.length)) ∧
    (∀ (base : SpeakerState) (ids : List ℕ), ids.Nodup →
      ∀ (hk : 8 < ids.length),
        lookupId (runColors (resetSpeakerStateEmpty base) ids).speakerColorMap
          (ids.get ⟨8, hk⟩) = some 0) := by
  have hfirst : ∀ (st : SpeakerState) (id : ℕ),
      lookupId st.speakerColorMap id = none →
      (getSpeakerColor st id).2.speakerColorMap =
        setId st.speakerColorMap id (st.nextColorIndex % SPEAKER_COLORS.length) ∧
      (getSpeakerColor st id).2.nextColorIndex = st.nextColorIndex + 1 ∧
      lookupId (getSpeakerColor st id).2.speakerColorMap id =
        some (st.nextColorIndex % SPEAKER_COLORS.length) := by
    intro st id h
    rw [getSpeakerColor, h]
    exact ⟨rfl, rfl, lookupId_setId_self _ _ _⟩
  have hrepeat : ∀ (st : SpeakerState) (id idx : ℕ),
      lookupId st.speakerColorMap id = some idx →
      getSpeakerColor st id = (SPEAKER_COLORS.get? idx, st) := by
    intro st id idx h
    rw [getSpeakerColor, h]
  refine ⟨hfirst, hrepeat, ?_, ?_, ?_⟩
  · intro st id
    match hl : lookupId st.speakerColorMap id with
    | some idx =>
      have h1 := hrepeat st id idx hl
      rw [h1]
      exact hrepeat st id idx hl
    | none =>
      have h1 := hfirst st id hl
      have h2 := hrepeat (getSpeakerColor st id).2 id _ h1.2.2
      rw [h2]
      rw [getSpeakerColor, hl]
  · intro st ids hnd hfresh k hk
    exact (runColors_assigns ids st hnd hfresh).2 k hk
  · intro base ids hnd hk
    have hfresh : ∀ i ∈ ids,
        lookupId (resetSpeakerStateEmpty base).speakerColorMap i = none := by
      intro i _; rfl
    have h := (runColors_assigns ids (resetSpeakerStateEmpty base) hnd hfresh).2 8 hk
    rw [h]
    norm_num [resetSpeakerStateEmpty, SPEAKER_COLORS]

/-- Witness for C9: the 9 distinct ids 0..8 colored from a reset state,
with the 9th receiving palette index 0; plus a concrete first-sight
assignment and a stable repeated call. -/
theorem getSpeakerColor_spec_witness :
    lookupId (runColors (resetSpeakerStateEmpty demoState)
        [0, 1, 2, 3, 4, 5, 6, 7, 8]).speakerColorMap
      ([0, 1, 2, 3, 4, 5, 6, 7, 8].get ⟨8, by decide⟩) = some 0 ∧
    lookupId (getSpeakerColor demoState 3).2.speakerColorMap 3 =
      some (demoState.nextColorIndex % SPEAKER_COLORS.length) ∧
    getSpeakerColor (getSpeakerColor demoState 3).2 3 =
      ((getSpeakerColor demoState 3).1, (getSpeakerColor demoState 3).2) := by
  refine ⟨getSpeakerColor_spec.2.2.2.2 demoState [0, 1, 2, 3, 4, 5, 6, 7, 8]
      (by decide) (by decide),
    (getSpeakerColor_spec.1 demoState 3 (by decide)).2.2,
    getSpeakerColor_spec.2.2.1 demoState 3⟩

section BestFold

variable (current : ℕ) (newFp : Fingerprint)

lemma bestFold_le (entries : List (ℕ × SpeakerProfile)) :
    ∀ acc : ℤ × ℚ,
      acc.2 ≤ (entries.foldl
        (fun acc e =>
          if e.1 = current then acc
          else if compareFingerprints (some newFp) (some e.2.toFingerprint) > acc.2 then
            ((e.1 : ℤ), compareFingerprints (some newFp) (some e.2.toFingerprint))
          else acc) acc).2 := by
  induction entries with
  | nil => intro acc; exact le_refl _
  | cons e rest ih =>
    intro acc
    simp only [List.foldl_cons]
    refine le_trans ?_ (ih _)
    by_cases h1 : e.1 = current
    · rw [if_pos h1]
    · rw [if_neg h1]
      by_cases h2 : compareFingerprints (some newFp) (some e.2.toFingerprint) > acc.2
      · rw [if_pos h2]; exact le_of_lt h2
      · rw [if_neg h2]

lemma bestFold_ub (entries : List (ℕ × SpeakerProfile)) :
    ∀ (acc : ℤ × ℚ) (q : ℕ × SpeakerProfile), q ∈ entries → q.1 ≠ current →
      compareFingerprints (some newFp) (some q.2.toFingerprint) ≤
        (entries.foldl
          (fun acc e =>
            if e.1 = current then acc
            else if compareFingerprints (some newFp) (some e.2.toFingerprint) > acc.2 then
              ((e.1 : ℤ), compareFingerprints (some newFp) (some e.2.toFingerprint))
            else acc) acc).2 := by
  induction entries with
  | nil => intro acc q hq; exact absurd hq (List.not_mem_nil q)
  | cons e rest ih =>
    intro acc q hq hqc
    rcases List.mem_cons.mp hq with rfl | hq'
    · simp only [List.foldl_cons, if_neg hqc]
      by_cases h2 : compareFingerprints (some newFp) (some q.2.toFingerprint) > acc.2
      · rw [if_pos h2]
        exact bestFold_le current newFp rest _
      · rw [if_neg h2]
        exact le_trans (not_lt.mp h2) (bestFold_le current newFp rest _)
    · simp only [List.foldl_cons]
      exact ih _ q hq' hqc

lemma bestFold_attained (entries : List (ℕ × SpeakerProfile)) :
    ∀ acc : ℤ × ℚ,
      (entries.foldl
        (fun acc e =>
          if e.1 = current then acc
          else if compareFingerprints (some newFp) (some e.2.toFingerprint) > acc.2 then
            ((e.1 : ℤ), compareFingerprints (some newFp) (some e.2.toFingerprint))
          else acc) acc) = acc ∨
      ∃ q ∈ entries, q.1 ≠ current ∧
        (entries.foldl
          (fun acc e =>
            if e.1 = current then acc
            else if compareFingerprints (some newFp) (some e.2.toFingerprint) > acc.2 then
              ((e.1 : ℤ), compareFingerprints (some newFp) (some e.2.toFingerprint))
            else acc) acc) =
          ((q.1 : ℤ), compareFingerprints (some newFp) (some q.2.toFingerprint)) := by
  induction entries with
  | nil => intro acc; exact Or.inl rfl
  | cons e rest ih =>
    intro acc
    simp only [List.foldl_cons]
    by_cases h1 : e.1 = current
    · rw [if_pos h1]
      rcases ih acc with h | ⟨q, hq, hqc, heq⟩
      · exact Or.inl h
      · exact Or.inr ⟨q, List.mem_cons_of_mem e hq, hqc, heq⟩
    · rw [if_neg h1]
      by_cases h2 : compareFingerprints (some newFp) (some e.2.toFingerprint) > acc.2
      · rw [if_pos h2]
        rcases ih ((e.1 : ℤ), compareFingerprints (some newFp) (some e.2.toFingerprint))
          with h | ⟨q, hq, hqc, heq⟩
        · exact Or.inr ⟨e, List.mem_cons_self e rest, h1, h⟩
        · exact Or.inr ⟨q, List.mem_cons_of_mem e hq, hqc, heq⟩
      · rw [if_neg h2]
        rcases ih acc with h | ⟨q, hq, hqc, heq⟩
        · exact Or.inl h
        · exact Or.inr ⟨q, List.mem_cons_of_mem e hq, hqc, heq⟩

lemma bestOtherFold_eq (entries : List (ℕ × SpeakerProfile)) :
    bestOtherFold current newFp entries =
      entries.foldl
        (fun acc e =>
          if e.1 = current then acc
          else if compareFingerprints (some newFp) (some e.2.toFingerprint) > acc.2 then
            ((e.1 : ℤ), compareFingerprints (some newFp) (some e.2.toFingerprint))
          else acc) (-1, 0) := rfl

lemma bestOtherFold_ub (entries : List (ℕ × SpeakerProfile)) :
    ∀ q ∈ entries, q.1 ≠ current →
      compareFingerprints (some newFp) (some q.2.toFingerprint) ≤
        (bestOtherFold current newFp entries).2 := by
  intro q hq hqc
  rw [bestOtherFold_eq]
  exact bestFold_ub current newFp entries (-1, 0) q hq hqc

lemma bestOtherFold_mem (entries : List (ℕ × SpeakerProfile))
    (h : (bestOtherFold current newFp entries).1 ≥ 0) :
    ∃ q ∈ entries, q.1 ≠ current ∧
      (bestOtherFold current newFp entries).1 = (q.1 : ℤ) ∧
      (bestOtherFold current newFp entries).2 =
        compareFingerprints (some newFp) (some q.2.toFingerprint) := by
  rw [bestOtherFold_eq] at h ⊢
  rcases bestFold_attained current newFp entries (-1, 0) with heq | ⟨q, hq, hqc, heq⟩
  · rw [heq] at h
    norm_num at h
  · exact ⟨q, hq, hqc, by rw [heq], by rw [heq]⟩

end BestFold

lemma analysisPhase_resolve (st : SpeakerState) (newFp : Fingerprint)
    (hp : st.pendingAnalysis = true)
    (hlen : VOICE_PROFILE_MIN_SAMPLES ≤ st.voiceSampleBuffer.length)
    (hfp : buildFingerprint st.voiceSampleBuffer = some newFp) :
    analysisPhase st =
      (if (match lookupId st.speakerProfiles st.currentSpeakerId with
            | some p => compareFingerprints (some newFp) (some p.toFingerprint)
            | none => (1 : ℚ)) ≥ getSpeakerDifferThreshold st.speakerSensitivity then
        { st with pendingAnalysis := false }
      else
        if (bestOtherFold st.currentSpeakerId newFp st.speakerProfiles).1 ≥ 0 ∧
            (bestOtherFold st.currentSpeakerId newFp st.speakerProfiles).2 ≥
              getSpeakerDifferThreshold st.speakerSensitivity then
          { st with
              currentSpeakerId :=
                (bestOtherFold st.currentSpeakerId newFp st.speakerProfiles).1.toNat,
              pendingAnalysis := false }
        else
          { st with
              currentSpeakerId := st.speakerCount,
              speakerCount := st.speakerCount + 1,
              pendingAnalysis := false }) := by
  rw [analysisPhase, if_pos ⟨hp, hlen⟩, hfp]

/-- C1: the diarization decision of `detectSpeakerChange` when a
re-evaluation is pending and the buffer holds at least `minSamples`
samples: with no stored profile for the current speaker the similarity is
treated as 1 and the policy stays; with a stored profile, similarity at or
above the differ threshold keeps the current id; below it, the fingerprint
is scored against every other profile — the fold's `bestScore` bounds all
other scores — and a best score at or above the threshold switches to that
profile's id, while otherwise the brand-new id `speakerCount` is assigned
and `speakerCount` is incremented by 1. -/
theorem detectSpeakerChange_decision (st : SpeakerState) (newFp : Fingerprint)
    (hp : st.pendingAnalysis = true)
    (hlen : VOICE_PROFILE_MIN_SAMPLES ≤ st.voiceSampleBuffer.length)
    (hs0 : 0 ≤ st.speakerSensitivity) (hs1 : st.speakerSensitivity ≤ 100)
    (hfp : buildFingerprint st.voiceSampleBuffer = some newFp) :
    (lookupId st.speakerProfiles st.currentSpeakerId = none →
      (analysisPhase st).currentSpeakerId = st.currentSpeakerId ∧
      (analysisPhase st).speakerCount = st.speakerCount) ∧
    (∀ p, lookupId st.speakerProfiles st.currentSpeakerId = some p →
      (getSpeakerDifferThreshold st.speakerSensitivity ≤
          compareFingerprints (some newFp) (some p.toFingerprint) →
        (analysisPhase st).currentSpeakerId = st.currentSpeakerId ∧
        (analysisPhase st).speakerCount = st.speakerCount) ∧
      (compareFingerprints (some newFp) (some p.toFingerprint) <
          getSpeakerDifferThreshold st.speakerSensitivity →
        (∀ q ∈ st.speakerProfiles, q.1 ≠ st.currentSpeakerId →
          compareFingerprints (some newFp) (some q.2.toFingerprint) ≤
            (bestOtherFold st.currentSpeakerId newFp st.speakerProfiles).2) ∧
        (getSpeakerDifferThreshold st.speakerSensitivity ≤
            (bestOtherFold st.currentSpeakerId newFp st.speakerProfiles).2 →
          ∃ q ∈ st.speakerProfiles, q.1 ≠ st.currentSpeakerId ∧
            compareFingerprints (some newFp) (some q.2.toFingerprint) =
              (bestOtherFold st.currentSpeakerId newFp st.speakerProfiles).2 ∧
            (analysisPhase st).currentSpeakerId = q.1 ∧
            (analysisPhase st).speakerCount = st.speakerCount) ∧
        ((bestOtherFold st.currentSpeakerId newFp st.speakerProfiles).2 <
            getSpeakerDifferThreshold st.speakerSensitivity →
          (analysisPhase st).currentSpeakerId = st.speakerCount ∧
          (analysisPhase st).speakerCount = st.speakerCount + 1))) := by
  have hthr_lb : (1 : ℚ) / 20 ≤ getSpeakerDifferThreshold st.speakerSensitivity := by
    rw [getSpeakerDifferThreshold]
    nlinarith
  have hthr_ub : getSpeakerDifferThreshold st.speakerSensitivity ≤ 1 / 2 := by
    rw [getSpeakerDifferThreshold]
    nlinarith
  have hres := analysisPhase_resolve st newFp hp hlen hfp
  constructor
  · intro hl
    rw [hl] at hres
    rw [hres, if_pos (by linarith : (1 : ℚ) ≥ getSpeakerDifferThreshold st.speakerSensitivity)]
    exact ⟨rfl, rfl⟩
  · intro p hl
    rw [hl] at hres
    constructor
    · intro hsim
      rw [hres, if_pos hsim]
      exact ⟨rfl, rfl⟩
    · intro hsim
      rw [if_neg (not_le.mpr hsim)] at hres
      refine ⟨bestOtherFold_ub st.currentSpeakerId newFp st.speakerProfiles, ?_, ?_⟩
      · intro hbest
        have hpos : (bestOtherFold st.currentSpeakerId newFp st.speakerProfiles).1 ≥ 0 := by
          rcases bestFold_attained st.currentSpeakerId newFp st.speakerProfiles (-1, 0)
            with heq | ⟨q, hq, hqc, heq⟩
          · exfalso
            rw [bestOtherFold_eq] at hbest
            rw [heq] at hbest
            simp only at hbest
            linarith
          · rw [bestOtherFold_eq, heq]
            positivity
        obtain ⟨q, hq, hqc, hq1, hq2⟩ :=
          bestOtherFold_mem st.currentSpeakerId newFp st.speakerProfiles hpos
        rw [hres, if_pos ⟨hpos, hbest⟩]
        refine ⟨q, hq, hqc, hq2.symm, ?_, rfl⟩
        show (bestOtherFold st.currentSpeakerId newFp st.speakerProfiles).1.toNat = q.1
        rw [hq1]
        exact Int.toNat_natCast q.1
      · intro hbest
        rw [hres, if_neg (fun hc => absurd hc.2 (not_le.mpr hbest))]
        exact ⟨rfl, rfl⟩

/-- Witness for C1 at a concrete pending state: the new fingerprint equals
the stored profile of the current speaker (similarity 1 at threshold
0.1175), so the policy keeps speaker 0. -/
theorem detectSpeakerChange_decision_witness :
    lookupId pendingDemoState.speakerProfiles pendingDemoState.currentSpeakerId =
      some ⟨⟨120, 0, 1000, 0⟩, 1⟩ ∧
    getSpeakerDifferThreshold pendingDemoState.speakerSensitivity ≤
      compareFingerprints (some ⟨120, 0, 1000, 0⟩)
        (some (⟨⟨120, 0, 1000, 0⟩, 1⟩ : SpeakerProfile).toFingerprint) ∧
    (analysisPhase pendingDemoState).currentSpeakerId =
      pendingDemoState.currentSpeakerId ∧
    (analysisPhase pendingDemoState).speakerCount = pendingDemoState.speakerCount := by
  have hfp : buildFingerprint pendingDemoState.voiceSampleBuffer =
      some ⟨120, 0, 1000, 0⟩ := by
    norm_num [pendingDemoState, buildFingerprint, buildFingerprintWith,
      VOICE_PROFILE_MIN_SAMPLES, Fingerprint.mk.injEq]
  have hsim : getSpeakerDifferThreshold pendingDemoState.speakerSensitivity ≤
      compareFingerprints (some ⟨120, 0, 1000, 0⟩)
        (some (⟨⟨120, 0, 1000, 0⟩, 1⟩ : SpeakerProfile).toFingerprint) := by
    norm_num [pendingDemoState, getSpeakerDifferThreshold, compareFingerprints]
  have h := (detectSpeakerChange_decision pendingDemoState ⟨120, 0, 1000, 0⟩
    rfl (by norm_num [pendingDemoState, VOICE_PROFILE_MIN_SAMPLES])
    (by norm_num [pendingDemoState]) (by norm_num [pendingDemoState]) hfp).2
    ⟨⟨120, 0, 1000, 0⟩, 1⟩ rfl
  exact ⟨rfl, hsim, (h.1 hsim).1, (h.1 hsim).2⟩

lemma keys_updateSpeakerProfile (profiles : List (ℕ × SpeakerProfile)) (id : ℕ)
    (ofp : Option Fingerprint) :
    ∀ j ∈ (updateSpeakerProfile profiles id ofp).map Prod.fst,
      j = id ∨ j ∈ profiles.map Prod.fst := by
  intro j hj
  match ofp with
  | none => exact Or.inr hj
  | some fp =>
    match hl : lookupId profiles id with
    | none =>
      simp only [updateSpeakerProfile, hl] at hj
      exact mem_keys_setId profiles id _ j hj
    | some existing =>
      simp only [updateSpeakerProfile, hl] at hj
      exact mem_keys_setId profiles id _ j hj

lemma gapPhase_fields (now : ℤ) (st : SpeakerState) :
    (gapPhase now st).currentSpeakerId = st.currentSpeakerId ∧
    (gapPhase now st).speakerCount = st.speakerCount := by
  rw [gapPhase]
  split <;> exact ⟨rfl, rfl⟩

lemma idsBounded_gapPhase (now : ℤ) (st : SpeakerState) (h : idsBounded st) :
    idsBounded (gapPhase now st) := by
  rw [gapPhase]
  split
  · refine ⟨h.1, ?_⟩
    intro k hk
    rcases keys_updateSpeakerProfile st.speakerProfiles st.currentSpeakerId _ k hk
      with rfl | hk'
    · exact h.1
    · exact h.2 k hk'
  · exact h

lemma analysisPhase_cases (st : SpeakerState) :
    analysisPhase st = st ∨
    analysisPhase st = { st with pendingAnalysis := false } ∨
    (∃ newFp, buildFingerprint st.voiceSampleBuffer = some newFp ∧
      (bestOtherFold st.currentSpeakerId newFp st.speakerProfiles).1 ≥ 0 ∧
      analysisPhase st =
        { st with
            currentSpeakerId :=
              (bestOtherFold st.currentSpeakerId newFp st.speakerProfiles).1.toNat,
            pendingAnalysis := false }) ∨
    analysisPhase st =
      { st with
          currentSpeakerId := st.speakerCount,
          speakerCount := st.speakerCount + 1,
          pendingAnalysis := false } := by
  rw [analysisPhase]
  split
  · split
    · exact Or.inl rfl
    · next newFp heq =>
      dsimp only
      split
      · exact Or.inr (Or.inl rfl)
      · split
        · next hc =>
          exact Or.inr (Or.inr (Or.inl ⟨newFp, heq, hc.1, rfl⟩))
        · exact Or.inr (Or.inr (Or.inr rfl))
  · exact Or.inl rfl

lemma idsBounded_analysisPhase (st : SpeakerState) (h : idsBounded st) :
    idsBounded (analysisPhase st) := by
  rcases analysisPhase_cases st with heq | heq | ⟨newFp, hfp, hpos, heq⟩ | heq <;>
    rw [heq]
  · exact h
  · exact ⟨h.1, h.2⟩
  · obtain ⟨q, hq, hqc, hq1, hq2⟩ :=
      bestOtherFold_mem st.currentSpeakerId newFp st.speakerProfiles hpos
    refine ⟨?_, h.2⟩
    show (bestOtherFold st.currentSpeakerId newFp st.speakerProfiles).1.toNat <
      st.speakerCount
    rw [hq1, Int.toNat_natCast]
    exact h.2 q.1 (List.mem_map_of_mem Prod.fst hq)
  · exact ⟨Nat.lt_succ_self _, fun k hk => Nat.lt_succ_of_lt (h.2 k hk)⟩

lemma idsBounded_applyOp (st : SpeakerState) (op : SpeakerOp) (h : idsBounded st) :
    idsBounded (applyOp st op) := by
  match op with
  | .speech now =>
    exact idsBounded_analysisPhase (gapPhase now st) (idsBounded_gapPhase now st h)
  | .sample s =>
    show idsBounded (collectVoiceSample st s)
    rw [collectVoiceSample]
    split <;> exact h
  | .deleteSaved id =>
    exact ⟨h.1, fun k hk => h.2 k (mem_keys_removeId st.speakerProfiles id k hk)⟩

lemma idsBounded_runOps (ops : List SpeakerOp) :
    ∀ st : SpeakerState, idsBounded st → idsBounded (runOps st ops) := by
  induction ops with
  | nil => intro st h; exact h
  | cons op ops ih =>
    intro st h
    exact ih (applyOp st op) (idsBounded_applyOp st op h)

/-- C8 (amended): in every state reachable from a reset with no saved
data, every stored speaker id and the current id lie below `speakerCount`;
every speech event weakly increases `speakerCount`; and whenever a speech
event changes `speakerCount` (a mint), the returned id is the old
`speakerCount` and the new `speakerCount` is that id plus 1 — but after
deleting an individual saved speaker the stored id set need not be dense
(see the counterexample). -/
theorem speaker_ids_invariant :
    (∀ (base : SpeakerState) (ops : List SpeakerOp),
      idsBounded (runOps (resetSpeakerStateEmpty base) ops)) ∧
    (∀ (now : ℤ) (st : SpeakerState),
      st.speakerCount ≤ (detectSpeakerChange now st).2.speakerCount) ∧
    (∀ (now : ℤ) (st : SpeakerState),
      (detectSpeakerChange now st).2.speakerCount ≠ st.speakerCount →
      (detectSpeakerChange now st).1 = st.speakerCount ∧
      (detectSpeakerChange now st).2.currentSpeakerId = st.speakerCount ∧
      (detectSpeakerChange now st).2.speakerCount = st.speakerCount + 1) := by
  have hbase : ∀ base : SpeakerState, idsBounded (resetSpeakerStateEmpty base) := by
    intro base
    exact ⟨Nat.zero_lt_one, fun k hk => absurd hk (List.not_mem_nil k)⟩
  have hd1 : ∀ (now : ℤ) (st : SpeakerState), (detectSpeakerChange now st).1 =
      (analysisPhase (gapPhase now st)).currentSpeakerId := fun _ _ => rfl
  have hd2 : ∀ (now : ℤ) (st : SpeakerState),
      (detectSpeakerChange now st).2.speakerCount =
      (analysisPhase (gapPhase now st)).speakerCount := fun _ _ => rfl
  have hd3 : ∀ (now : ℤ) (st : SpeakerState),
      (detectSpeakerChange now st).2.currentSpeakerId =
      (analysisPhase (gapPhase now st)).currentSpeakerId := fun _ _ => rfl
  refine ⟨fun base ops => idsBounded_runOps ops _ (hbase base), ?_, ?_⟩
  · intro now st
    rw [hd2 now st]
    have hgc := (gapPhase_fields now st).2
    rcases analysisPhase_cases (gapPhase now st) with heq | heq | ⟨_, _, _, heq⟩ | heq <;>
      rw [heq] <;> (try dsimp only) <;> rw [hgc] <;> omega
  · intro now st hne
    rw [hd2 now st] at hne
    rw [hd1 now st, hd2 now st, hd3 now st]
    have hgc := (gapPhase_fields now st).2
    rcases analysisPhase_cases (gapPhase now st) with heq | heq | ⟨_, _, _, heq⟩ | heq <;>
      rw [heq] at hne ⊢ <;> (try dsimp only at hne ⊢) <;> rw [hgc] at hne ⊢
    · exact absurd rfl hne
    · exact absurd rfl hne
    · exact absurd rfl hne
    · exact ⟨rfl, rfl, rfl⟩

/-- C8 counterexample: running the concrete trace `c8TraceOps` from a
reset state leaves the profile store holding speaker id 1 but not 0, so
after deleting an individual saved speaker the set of stored speaker ids
is not a dense set of integers starting at 0. -/
theorem speaker_ids_dense_counterexample :
    profileKeys (runOps (resetSpeakerStateEmpty demoState) c8TraceOps) = [1] ∧
    ¬ denseFromZero (runOps (resetSpeakerStateEmpty demoState) c8TraceOps) := by
  have hkeys : profileKeys (runOps (resetSpeakerStateEmpty demoState) c8TraceOps) =
      [1] := by
    norm_num [runOps, c8TraceOps, applyOp, collectVoiceSample, deleteSavedSpeaker,
      removeId, resetSpeakerStateEmpty, demoState, profileKeys,
      detectSpeakerChange, gapPhase, analysisPhase, silenceGapOf,
      buildFingerprint, buildFingerprintWith, VOICE_PROFILE_MIN_SAMPLES,
      SPEAKER_ANALYSIS_THRESHOLD, compareFingerprints, getSpeakerDifferThreshold,
      bestOtherFold, lookupId, updateSpeakerProfile, setId,
      Prod.ext_iff, SpeakerState.mk.injEq, Fingerprint.mk.injEq,
      SpeakerProfile.mk.injEq]
  refine ⟨hkeys, fun hdense => ?_⟩
  have h01 := hdense 1 (by rw [hkeys]; exact List.mem_singleton.mpr rfl)
    0 Nat.zero_lt_one
  rw [hkeys] at h01
  simp at h01

/-- Witness for C8 (amended): the bound invariant after the concrete trace,
and a concrete minting speech event (state `mintDemoState`, a clearly
different voice) where the returned id is the old `speakerCount` 1 and the
new `speakerCount` is 2. -/
theorem speaker_ids_invariant_witness :
    idsBounded (runOps (resetSpeakerStateEmpty demoState) c8TraceOps) ∧
    (detectSpeakerChange 3500 mintDemoState).2.speakerCount ≠
      mintDemoState.speakerCount ∧
    (detectSpeakerChange 3500 mintDemoState).1 = mintDemoState.speakerCount ∧
    (detectSpeakerChange 3500 mintDemoState).2.speakerCount =
      mintDemoState.speakerCount + 1 := by
  have hne : (detectSpeakerChange 3500 mintDemoState).2.speakerCount ≠
      mintDemoState.speakerCount := by
    norm_num [detectSpeakerChange, gapPhase, analysisPhase, silenceGapOf,
      mintDemoState, buildFingerprint, buildFingerprintWith,
      VOICE_PROFILE_MIN_SAMPLES, SPEAKER_ANALYSIS_THRESHOLD, compareFingerprints,
      getSpeakerDifferThreshold, bestOtherFold, lookupId, updateSpeakerProfile]
  have h := speaker_ids_invariant
  exact ⟨h.1 demoState c8TraceOps, hne, (h.2.2 3500 mintDemoState hne).1,
    (h.2.2 3500 mintDemoState hne).2.2⟩

end Bava
